import Mathlib

/-!
Verification development for the two-sample-test module `freqopttest/tst.py`.

Modelling conventions of the shallow embedding:
* Real-valued numpy arrays are modelled as `Matrix (Fin n) (Fin d) ℚ`
  (exact rational stand-ins for IEEE floats).
* numpy's transcendental functions (`np.exp`, `np.sin`, `np.cos`), scipy's
  `stats.chi2.sf`, the float power `it**0.5` and the square root
  `(...)**0.5` are external library calls; they enter the embedding as
  function parameters (`fexp`, `fsin`, `fcos`, `chi2sf`, `itPow`, `sqrtQ`).
* Fallible numpy operations (`np.linalg.solve` raising `LinAlgError`,
  numpy broadcasting failures) are modelled with `Option`: `none` is a
  raised exception.
* The theano-compiled objective/gradient evaluation of the optimizers is
  modelled as a step function parameter: given the numpy global random
  state (which determined the mini-batch) and the current shared
  variables, it returns the objective value and the updated shared
  variables, or `none` when the evaluation raises (e.g. a singular
  covariance inside `matrix_inverse`).
* The numpy global random state is threaded explicitly: an abstract type
  `R`, advanced by `draw : R → R` each time `np.random.choice` is called.
-/

open scoped Matrix

section FeatureMaps

variable {n d J : ℕ}

/-- One feature block of `SmoothCFTest.construct_z`
(src/freqopttest/tst.py lines 254-266) for a single sample matrix:
the rows `[sin(x·Tᵀ), cos(x·Tᵀ)]` (data first divided by the Gaussian
width) scaled by the envelope `fexp(-‖x‖²/2)`.  Columns are indexed by
`Fin J ⊕ Fin J`: `Sum.inl` is the sine block, `Sum.inr` the cosine block
of the `np.hstack`. -/
def scf_features (fexp fsin fcos : ℚ → ℚ) (T : Matrix (Fin J) (Fin d) ℚ) (gw : ℚ)
    (X : Matrix (Fin n) (Fin d) ℚ) : Matrix (Fin n) (Fin J ⊕ Fin J) ℚ :=
  Matrix.of fun i =>
    Sum.elim
      (fun jj => fsin (∑ j, X i j / gw * T jj j) * fexp (-(∑ j, (X i j / gw) ^ 2) / 2))
      (fun jj => fcos (∑ j, X i j / gw * T jj j) * fexp (-(∑ j, (X i j / gw) ^ 2) / 2))

/-- `SmoothCFTest.construct_z` (lines 243-269): `z = zx - zy`, the
difference of the smooth-characteristic-function features of the two
samples (after the `X.shape[0] == Y.shape[0]` check, which here is
enforced by the common row type `Fin n`; see `construct_z_checked` for
the checked version). -/
def construct_z (fexp fsin fcos : ℚ → ℚ) (X Y : Matrix (Fin n) (Fin d) ℚ)
    (T : Matrix (Fin J) (Fin d) ℚ) (gw : ℚ) : Matrix (Fin n) (Fin J ⊕ Fin J) ℚ :=
  scf_features fexp fsin fcos T gw X - scf_features fexp fsin fcos T gw Y

/-- `MeanEmbeddingTest.asym_gauss_kernel` (lines 570-580):
`K = exp(-D2)` with `D2 = ‖x/γ‖² - 2(x/γ)·tᵀ + ‖t‖²` (the width divides
only the data, not the test locations). -/
def asym_gauss_kernel (fexp : ℚ → ℚ) (T : Matrix (Fin J) (Fin d) ℚ) (gamma : ℚ)
    (X : Matrix (Fin n) (Fin d) ℚ) : Matrix (Fin n) (Fin J) ℚ :=
  Matrix.of fun i jj =>
    fexp (-((∑ j, (X i j / gamma) ^ 2) - 2 * ∑ j, X i j / gamma * T jj j + ∑ j, T jj j ^ 2))

/-- The mean-embedding feature matrix `Z = g - h` of
`MeanEmbeddingTest.compute_stat` (lines 412-414) and
`MeanEmbeddingTest.construct_z_theano` (lines 434-447). -/
def me_construct_z (fexp : ℚ → ℚ) (X Y : Matrix (Fin n) (Fin d) ℚ)
    (T : Matrix (Fin J) (Fin d) ℚ) (gamma : ℚ) : Matrix (Fin n) (Fin J) ℚ :=
  asym_gauss_kernel fexp T gamma X - asym_gauss_kernel fexp T gamma Y

end FeatureMaps

section Statistic

variable {n : ℕ} {m : Type*} [Fintype m] [DecidableEq m]

/-- `W = np.mean(Z, 0)`: column means of the feature matrix. -/
def colMean (Z : Matrix (Fin n) m ℚ) : m → ℚ := fun j => (∑ i, Z i j) / (n : ℚ)

/-- The rows of `Z` centred by the column means (this subtraction is
performed inside `np.cov(Z.T)` on the evaluator path and explicitly as
`Z0 = Z - W` on the optimizer path, lines 617/700). -/
def centered (Z : Matrix (Fin n) m ℚ) : Matrix (Fin n) m ℚ :=
  Matrix.of fun i j => Z i j - colMean Z j

/-- The unnormalised scatter matrix `Z0ᵀ · Z0`. -/
def scatter (Z0 : Matrix (Fin n) m ℚ) : Matrix m m ℚ :=
  Matrix.of fun j k => ∑ i, Z0 i j * Z0 i k

/-- `Sig = np.cov(Z.T)` (lines 199/415): the unbiased empirical
covariance, dividing the scatter matrix by `n - 1`. -/
def npCov (Z : Matrix (Fin n) m ℚ) : Matrix m m ℚ :=
  ((n : ℚ) - 1)⁻¹ • scatter (centered Z)

/-- `np.linalg.solve(A, b)`: the solution of `A x = b` by Cramer's rule;
`none` models the `LinAlgError` raised on a singular matrix. -/
def npSolve (A : Matrix m m ℚ) (b : m → ℚ) : Option (m → ℚ) :=
  if A.det = 0 then none else some fun i => Matrix.cramer A b i / A.det

/-- The test statistic `s = n * np.linalg.solve(Sig, W).dot(W)` shared by
`SmoothCFTest.compute_stat` (lines 197-202) and
`MeanEmbeddingTest.compute_stat` (lines 411-418). -/
def t2_stat (Z : Matrix (Fin n) m ℚ) : Option ℚ :=
  (npSolve (npCov Z) (colMean Z)).map fun x => (n : ℚ) * (x ⬝ᵥ colMean Z)

/-- `nlinalg.matrix_inverse`, written (as in Mathlib's `Matrix.inv`) via
the adjugate so that it is executable: `A⁻¹ = det(A)⁻¹ • adj(A)`. -/
def matInv (A : Matrix m m ℚ) : Matrix m m ℚ := A.det⁻¹ • A.adjugate

/-- The covariance used on the optimizer path, `Sig = Z0.T.dot(Z0)/nx`
(lines 618/701): the biased estimate, dividing by `n`, not `n - 1`. -/
def optSig (Z : Matrix (Fin n) m ℚ) : Matrix m m ℚ :=
  (n : ℚ)⁻¹ • scatter (centered Z)

/-- The optimizer objective
`s = nlinalg.matrix_inverse(Sig).dot(W).dot(W)*nx` (lines 622/705),
built with an explicit matrix inverse because theano's gradient does not
support `solve`. -/
def opt_objective (Z : Matrix (Fin n) m ℚ) : ℚ :=
  (matInv (optSig Z) *ᵥ colMean Z) ⬝ᵥ colMean Z * (n : ℚ)

end Statistic

section Tests

variable {n d J : ℕ}

/-- `SmoothCFTest.compute_stat` (lines 187-203). -/
def scf_compute_stat (fexp fsin fcos : ℚ → ℚ) (X Y : Matrix (Fin n) (Fin d) ℚ)
    (T : Matrix (Fin J) (Fin d) ℚ) (gw : ℚ) : Option ℚ :=
  t2_stat (construct_z fexp fsin fcos X Y T gw)

/-- `MeanEmbeddingTest.compute_stat` (lines 401-419). -/
def me_compute_stat (fexp : ℚ → ℚ) (X Y : Matrix (Fin n) (Fin d) ℚ)
    (T : Matrix (Fin J) (Fin d) ℚ) (gamma : ℚ) : Option ℚ :=
  t2_stat (me_construct_z fexp X Y T gamma)

/-- The optimizer objective of `optimize_T_gaussian_width` specialised to
the SmoothCF feature map (`func_z = SmoothCFTest.construct_z_theano`,
whose formula is that of `construct_z`), evaluated on the full data. -/
def scf_opt_objective (fexp fsin fcos : ℚ → ℚ) (X Y : Matrix (Fin n) (Fin d) ℚ)
    (T : Matrix (Fin J) (Fin d) ℚ) (gw : ℚ) : ℚ :=
  opt_objective (construct_z fexp fsin fcos X Y T gw)

/-- The result dictionary `{alpha, pvalue, test_stat, h0_rejected}` of
`perform_test`. -/
structure TestResult where
  alpha : ℚ
  pvalue : ℚ
  test_stat : ℚ
  h0_rejected : Bool

/-- `SmoothCFTest.perform_test` (lines 205-217): p-value from the
chi-squared survival function with `2J` degrees of freedom,
`h0_rejected = (pvalue < alpha)`.  `chi2sf s k` models
`scipy.stats.chi2.sf(s, k)`. -/
def scf_perform_test (chi2sf : ℚ → ℕ → ℚ) (fexp fsin fcos : ℚ → ℚ) (alpha : ℚ)
    (X Y : Matrix (Fin n) (Fin d) ℚ) (T : Matrix (Fin J) (Fin d) ℚ) (gw : ℚ) :
    Option TestResult :=
  (scf_compute_stat fexp fsin fcos X Y T gw).map fun stat =>
    { alpha := alpha, pvalue := chi2sf stat (2 * J), test_stat := stat,
      h0_rejected := decide (chi2sf stat (2 * J) < alpha) }

/-- `MeanEmbeddingTest.perform_test` (lines 392-399): p-value from the
chi-squared survival function with `J` degrees of freedom. -/
def me_perform_test (chi2sf : ℚ → ℕ → ℚ) (fexp : ℚ → ℚ) (alpha : ℚ)
    (X Y : Matrix (Fin n) (Fin d) ℚ) (T : Matrix (Fin J) (Fin d) ℚ) (gamma : ℚ) :
    Option TestResult :=
  (me_compute_stat fexp X Y T gamma).map fun stat =>
    { alpha := alpha, pvalue := chi2sf stat J, test_stat := stat,
      h0_rejected := decide (chi2sf stat J < alpha) }

end Tests

section Optimizer

variable {d J : ℕ}

/-- `tensor.sgn`. -/
def sgn (x : ℚ) : ℚ := if 0 < x then 1 else if x < 0 then -1 else 0

/-- `tensor.sum(gra_T**2)**0.5`, the Euclidean norm of the T-gradient
(line 711); the external float square root enters as `sqrtQ`. -/
def gra_T_norm (sqrtQ : ℚ → ℚ) (graT : Matrix (Fin J) (Fin d) ℚ) : ℚ :=
  sqrtQ (∑ i, ∑ j, graT i j ^ 2)

/-- The T update of `optimize_T_gaussian_width` (line 711):
`T + T_step_size * gra_T / it**0.5 / ‖gra_T‖₂`; `itPow it` models the
float power `it**step_pow` with `step_pow = 0.5`. -/
def T_update (T_step : ℚ) (itPow : ℕ → ℚ) (sqrtQ : ℚ → ℚ) (it : ℕ)
    (T graT : Matrix (Fin J) (Fin d) ℚ) : Matrix (Fin J) (Fin d) ℚ :=
  T + (T_step / itPow it / gra_T_norm sqrtQ graT) • graT

/-- The T update with its IEEE finiteness made explicit: dividing the
step by a zero gradient norm makes every updated entry non-finite
(`inf * 0 = nan` when the gradient itself is zero), which `none`
models; there is no guard in the source. -/
def T_update_finite (T_step : ℚ) (itPow : ℕ → ℚ) (sqrtQ : ℚ → ℚ) (it : ℕ)
    (T graT : Matrix (Fin J) (Fin d) ℚ) : Option (Matrix (Fin J) (Fin d) ℚ) :=
  if gra_T_norm sqrtQ graT = 0 then none
  else some (T_update T_step itPow sqrtQ it T graT)

/-- The bandwidth-variable update (lines 631-633 and 715-717):
`gamma_sq + gwidth_step_size * sgn(gra) * min(|gra|, max_gam_sq_step) / it**0.5`
with `max_gam_sq_step = 1.0`. -/
def gamma_sq_update (gwidth_step : ℚ) (itPow : ℕ → ℚ) (it : ℕ) (gamma_sq gra : ℚ) : ℚ :=
  gamma_sq + gwidth_step * sgn gra * min |gra| 1 / itPow it

/-- The theano shared variables of `optimize_T_gaussian_width`: `T`, the
unconstrained bandwidth variable `gamma_sq` (the exposed Gaussian width
is its square) and the iteration counter `it` (initialised to 1). -/
structure OptTState (J d : ℕ) where
  T : Matrix (Fin J) (Fin d) ℚ
  gamma_sq : ℚ
  it : ℕ

/-- One call of the compiled theano function of
`optimize_T_gaussian_width` (lines 709-719): the oracle supplies the
objective value and the two gradients computed by theano's automatic
differentiation on the mini-batch determined by the random state `g`;
the updates are applied simultaneously, all reading the old `it`.
`none` models an exception raised during the evaluation. -/
def funcStep {R : Type*} (T_step gwidth_step : ℚ) (itPow : ℕ → ℚ) (sqrtQ : ℚ → ℚ)
    (oracle : R → OptTState J d → Option (ℚ × Matrix (Fin J) (Fin d) ℚ × ℚ))
    (g : R) (st : OptTState J d) : Option (ℚ × OptTState J d) :=
  (oracle g st).map fun o =>
    (o.1, ⟨T_update T_step itPow sqrtQ st.it st.T o.2.1,
           gamma_sq_update gwidth_step itPow st.it st.gamma_sq o.2.2,
           st.it + 1⟩)

/-- The gradient-ascent loop of `optimize_T_gaussian_width`
(lines 729-747).  Per iteration `t`: `np.random.choice` advances the
global random state (`draw`), the compiled function is evaluated on the
batch (`step g st`, which also applies the updates); on an exception the
loop breaks recording nothing for this iteration; otherwise
`(S[t], Ts[t], gams[t]) = (s, T.get_value(), gamma_sq.get_value()**2)`
is recorded and the loop breaks when `t >= 2` and
`|S[t] - S[t-1]| <= tol_fun`.  Returns the final random state and the
recorded trace (which is exactly `S[:t+1]`, `Ts[:t+1]`, `gams[:t+1]`). -/
def optTGo {R : Type*} (draw : R → R)
    (step : R → OptTState J d → Option (ℚ × OptTState J d)) (tol : ℚ) :
    ℕ → ℕ → R → OptTState J d → ℚ → R × List (ℚ × Matrix (Fin J) (Fin d) ℚ × ℚ)
  | 0, _, g, _, _ => (g, [])
  | fuel + 1, t, g, st, sPrev =>
    match step g st with
    | none => (draw g, [])
    | some (s, st1) =>
      if 2 ≤ t ∧ |s - sPrev| ≤ tol then (draw g, [(s, st1.T, st1.gamma_sq ^ 2)])
      else
        let r := optTGo draw step tol fuel (t + 1) (draw g) st1 s
        (r.1, (s, st1.T, st1.gamma_sq ^ 2) :: r.2)

/-- `optimize_T_gaussian_width` (lines 660-755): runs the loop and
returns `(Ts[-1], gams[-1], info)`; `none` models the `IndexError`
raised by `Ts[-1]` when the trace is empty (exception on the very first
iteration, or `max_iter = 0`). -/
def optimize_T_gaussian_width {R : Type*} (draw : R → R)
    (step : R → OptTState J d → Option (ℚ × OptTState J d))
    (max_iter : ℕ) (tol : ℚ) (g0 : R) (st0 : OptTState J d) :
    R × Option (Matrix (Fin J) (Fin d) ℚ × ℚ ×
      (List ℚ × List (Matrix (Fin J) (Fin d) ℚ) × List ℚ)) :=
  let r := optTGo draw step tol max_iter 0 g0 st0 0
  (r.1, r.2.getLast?.map fun e =>
    (e.2.1, e.2.2, (r.2.map fun a => a.1, r.2.map fun a => a.2.1, r.2.map fun a => a.2.2)))

/-- The theano shared variables of `optimize_gaussian_width` (T is
fixed, not a state component). -/
structure OptGState where
  gamma_sq : ℚ
  it : ℕ

/-- The gradient-ascent loop of `optimize_gaussian_width`
(lines 639-648).  Identical loop shape to `optTGo` except that there is
no `try/except` around the evaluation: an exception (`none`) aborts the
whole computation.  Returns the final random state and all recorded
`(S[t], gams[t])` entries. -/
def optGGo {R : Type*} (draw : R → R)
    (step : R → OptGState → Option (ℚ × OptGState)) (tol : ℚ) :
    ℕ → ℕ → R → OptGState → ℚ → Option (R × List (ℚ × ℚ))
  | 0, _, g, _, _ => some (g, [])
  | fuel + 1, t, g, st, sPrev =>
    match step g st with
    | none => none
    | some (s, st1) =>
      if 2 ≤ t ∧ |s - sPrev| ≤ tol then some (draw g, [(s, st1.gamma_sq ^ 2)])
      else
        (optGGo draw step tol fuel (t + 1) (draw g) st1 s).map fun r =>
          (r.1, (s, st1.gamma_sq ^ 2) :: r.2)

/-- `optimize_gaussian_width` (lines 591-655).  After the loop the
arrays are truncated as `S[:t]`, `gams[:t]` (line 650) — one entry
*shorter* than the recorded trace (`dropLast`), unlike the
`S[:t+1]` of `optimize_T_gaussian_width` — and `(gams[-1], info)` is
returned.  `none` models a propagated exception: a failed evaluation
(no `try/except` here), the `IndexError` of `gams[-1]` on an empty
trace, or the `NameError` on `t` when `max_iter = 0`. -/
def optimize_gaussian_width {R : Type*} (draw : R → R)
    (step : R → OptGState → Option (ℚ × OptGState))
    (max_iter : ℕ) (tol : ℚ) (g0 : R) (st0 : OptGState) :
    Option (R × ℚ × (List ℚ × List ℚ)) :=
  if max_iter = 0 then none
  else
    (optGGo draw step tol max_iter 0 g0 st0 0).bind fun r =>
      (r.2.dropLast.getLast?).map fun e =>
        (r.1, e.2, (r.2.dropLast.map fun a => a.1, r.2.dropLast.map fun a => a.2))

/-- `SmoothCFTest.optimize_freqs_width` (lines 293-337), with the numpy
global random state made explicit: the incoming state is saved
(`np.random.get_state`), the generator is reseeded (`np.random.seed`),
`T0 = np.random.randn(J, d)` is drawn, the saved state is restored
(`np.random.set_state`) and only then is `optimize_T_gaussian_width`
run — whose per-iteration `np.random.choice` calls advance the restored
global state.  Returns `(T0, final global state, optimization result)`.
`gamma_sq_init` is the data heuristic `1e-4 + tst_data.mean_std()**0.5`
(line 693), supplied as a parameter. -/
def optimize_freqs_width {R : Type*} (seedF : ℕ → R)
    (randn : R → Matrix (Fin J) (Fin d) ℚ × R) (draw : R → R)
    (step : R → OptTState J d → Option (ℚ × OptTState J d))
    (max_iter : ℕ) (tol : ℚ) (seed : ℕ) (gamma_sq_init : ℚ) (g0 : R) :
    Matrix (Fin J) (Fin d) ℚ × R × Option (Matrix (Fin J) (Fin d) ℚ × ℚ ×
      (List ℚ × List (Matrix (Fin J) (Fin d) ℚ) × List ℚ)) :=
  let rand_state := g0
  let T0 := (randn (seedF seed)).1
  let r := optimize_T_gaussian_width draw step max_iter tol rand_state ⟨T0, gamma_sq_init, 1⟩
  (T0, r.1, r.2)

/-- The mini-batch size `min(int(batch_proportion*nx), nx)` of
lines 641/731 (`int` truncates toward zero, i.e. floors a non-negative
float). -/
def batch_size (batch_proportion : ℚ) (nx : ℕ) : ℕ :=
  min (Int.toNat ⌊batch_proportion * (nx : ℚ)⌋) nx

/-- numpy's broadcasting rule for the leading axis, applied to the
elementwise subtraction `Z = g - h` of `MeanEmbeddingTest.compute_stat`
(line 414) where `g` has `nx` rows and `h` has `ny` rows: the result has
`max` rows when the counts agree or one of them is 1, otherwise numpy
raises (`none`). -/
def broadcastRows (nx ny : ℕ) : Option ℕ :=
  if nx = ny then some nx else if nx = 1 then some ny else if ny = 1 then some nx else none

/-- `SmoothCFTest.construct_z` including its explicit row-count check
(lines 252-253): `ValueError` (`none`) whenever `nx ≠ ny`. -/
def construct_z_checked (fexp fsin fcos : ℚ → ℚ) {nx ny dd JJ : ℕ}
    (X : Matrix (Fin nx) (Fin dd) ℚ) (Y : Matrix (Fin ny) (Fin dd) ℚ)
    (T : Matrix (Fin JJ) (Fin dd) ℚ) (gw : ℚ) :
    Option (Matrix (Fin nx) (Fin JJ ⊕ Fin JJ) ℚ) :=
  if h : nx = ny then
    some (construct_z fexp fsin fcos X (Matrix.of fun i j => Y (Fin.cast h i) j) T gw)
  else none

end Optimizer

section ConcreteData

/-- Concrete example data: X with rows 0, 1, 2 (n = 3, d = 1). -/
def Xex : Matrix (Fin 3) (Fin 1) ℚ := !![0; 1; 2]

/-- Concrete example parameter matrix: one test frequency 1 (J = 1). -/
def Tex : Matrix (Fin 1) (Fin 1) ℚ := !![1]

/-- The feature matrix `construct_z (fun _ => 1) id (fun x => x*x) Xex 0 Tex 1`
written out: rows (0,0), (1,1), (2,4). -/
def Zc4 : Matrix (Fin 3) (Fin 1 ⊕ Fin 1) ℚ :=
  Matrix.of fun i => Sum.elim (fun _ => ![0, 1, 2] i) (fun _ => ![0, 1, 4] i)

/-- `npCov Zc4` written out. -/
def Mcov4 : Matrix (Fin 1 ⊕ Fin 1) (Fin 1 ⊕ Fin 1) ℚ :=
  Matrix.of fun j k =>
    Sum.elim (fun _ => Sum.elim (fun _ => (1 : ℚ)) (fun _ => 2) k)
      (fun _ => Sum.elim (fun _ => (2 : ℚ)) (fun _ => 13/3) k) j

/-- `optSig Zc4` written out. -/
def MSig4 : Matrix (Fin 1 ⊕ Fin 1) (Fin 1 ⊕ Fin 1) ℚ :=
  Matrix.of fun j k =>
    Sum.elim (fun _ => Sum.elim (fun _ => (2/3 : ℚ)) (fun _ => 4/3) k)
      (fun _ => Sum.elim (fun _ => (4/3 : ℚ)) (fun _ => 26/9) k) j

/-- The feature matrix `construct_z id id (fun x => x + 1) Xex 0 Tex 1`
written out: rows (0,0), (-1/2,-1), (-4,-6). -/
def Zc1 : Matrix (Fin 3) (Fin 1 ⊕ Fin 1) ℚ :=
  Matrix.of fun i => Sum.elim (fun _ => ![0, -1/2, -4] i) (fun _ => ![0, -1, -6] i)

/-- `npCov Zc1` written out. -/
def Mcov1 : Matrix (Fin 1 ⊕ Fin 1) (Fin 1 ⊕ Fin 1) ℚ :=
  Matrix.of fun j k =>
    Sum.elim (fun _ => Sum.elim (fun _ => (19/4 : ℚ)) (fun _ => 7) k)
      (fun _ => Sum.elim (fun _ => (7 : ℚ)) (fun _ => 31/3) k) j

/-- The feature matrix `me_construct_z id Xex 0 Tex 1` written out:
column (0, 1, 0). -/
def Zme1 : Matrix (Fin 3) (Fin 1) ℚ := !![0; 1; 0]

end ConcreteData

/-! ### Helper lemmas -/

section Helpers

lemma getLast?_map_eq {α β : Type*} (f : α → β) :
    ∀ l : List α, (l.map f).getLast? = (l.getLast?).map f
  | [] => rfl
  | [_] => rfl
  | a :: b :: l => by
    rw [List.map_cons, List.map_cons, List.getLast?_cons_cons, ← List.map_cons,
      getLast?_map_eq f (b :: l), List.getLast?_cons_cons]

lemma mem_of_getLast?_eq {α : Type*} {l : List α} {x : α} (h : l.getLast? = some x) :
    x ∈ l := by
  obtain ⟨h', rfl⟩ := List.mem_getLast?_eq_getLast (by rwa [Option.mem_def])
  exact List.getLast_mem h'

variable {n : ℕ} {m : Type*} [Fintype m] [DecidableEq m]

lemma colMean_neg (Z : Matrix (Fin n) m ℚ) : colMean (-Z) = -colMean Z := by
  funext j
  simp [colMean, neg_div]

lemma centered_neg (Z : Matrix (Fin n) m ℚ) : centered (-Z) = -centered Z := by
  ext i j
  simp [centered, colMean_neg]
  ring

lemma scatter_neg (Z0 : Matrix (Fin n) m ℚ) : scatter (-Z0) = scatter Z0 := by
  ext j k
  simp [scatter]

lemma npCov_neg (Z : Matrix (Fin n) m ℚ) : npCov (-Z) = npCov Z := by
  rw [npCov, npCov, centered_neg, scatter_neg]

lemma npSolve_neg (A : Matrix m m ℚ) (b : m → ℚ) :
    npSolve A (-b) = (npSolve A b).map fun x => -x := by
  unfold npSolve
  split
  · rfl
  · rw [Option.map_some']
    congr 1
    funext i
    rw [map_neg]
    simp [neg_div]

lemma t2_stat_neg (Z : Matrix (Fin n) m ℚ) : t2_stat (-Z) = t2_stat Z := by
  unfold t2_stat
  rw [npCov_neg, colMean_neg, npSolve_neg]
  cases h : npSolve (npCov Z) (colMean Z) with
  | none => rfl
  | some x => simp [Matrix.neg_dotProduct, Matrix.dotProduct_neg]

lemma matInv_mulVec (A : Matrix m m ℚ) (b : m → ℚ) :
    matInv A *ᵥ b = A.det⁻¹ • Matrix.cramer A b := by
  rw [matInv, Matrix.smul_mulVec_assoc, Matrix.cramer_eq_adjugate_mulVec]

lemma npSolve_of_det_ne (A : Matrix m m ℚ) (b : m → ℚ) (hA : A.det ≠ 0) :
    npSolve A b = some (matInv A *ᵥ b) := by
  unfold npSolve
  rw [if_neg hA]
  congr 1
  funext i
  rw [matInv_mulVec]
  simp [div_eq_inv_mul]

lemma matInv_smul [Nonempty m] (c : ℚ) (hc : c ≠ 0) (A : Matrix m m ℚ) :
    matInv (c • A) = c⁻¹ • matInv A := by
  obtain ⟨p, hp⟩ : ∃ p, Fintype.card m = p + 1 :=
    ⟨Fintype.card m - 1, (Nat.succ_pred_eq_of_pos Fintype.card_pos).symm⟩
  rw [matInv, matInv, Matrix.det_smul, Matrix.adjugate_smul, smul_smul, smul_smul, hp,
    Nat.add_sub_cancel]
  congr 1
  rcases eq_or_ne A.det 0 with hd | hd
  · simp [hd]
  · field_simp
    ring

end Helpers

/-! ### Claim C6 -/

/-- C6: swapping the two samples negates the feature matrix `Z` of both
the frequency-based and the location-based feature map, and consequently
the quadratic-form statistic `s = n·Wᵀ Σ⁻¹ W` is invariant under
swapping X and Y (for every parameter matrix and bandwidth). -/
theorem c6_swap_antisymmetry (fexp fsin fcos : ℚ → ℚ) {n d J : ℕ}
    (X Y : Matrix (Fin n) (Fin d) ℚ) (T : Matrix (Fin J) (Fin d) ℚ) (gw : ℚ) :
    construct_z fexp fsin fcos Y X T gw = -construct_z fexp fsin fcos X Y T gw ∧
    me_construct_z fexp Y X T gw = -me_construct_z fexp X Y T gw ∧
    scf_compute_stat fexp fsin fcos Y X T gw = scf_compute_stat fexp fsin fcos X Y T gw ∧
    me_compute_stat fexp Y X T gw = me_compute_stat fexp X Y T gw := by
  have h1 : construct_z fexp fsin fcos Y X T gw = -construct_z fexp fsin fcos X Y T gw := by
    unfold construct_z
    rw [neg_sub]
  have h2 : me_construct_z fexp Y X T gw = -me_construct_z fexp X Y T gw := by
    unfold me_construct_z
    rw [neg_sub]
  refine ⟨h1, h2, ?_, ?_⟩
  · unfold scf_compute_stat
    rw [h1, t2_stat_neg]
  · unfold me_compute_stat
    rw [h2, t2_stat_neg]

/-! ### Claim C5 -/

/-- C5 (amended): the mini-batch size drawn at every iteration is
`min(int(batch_proportion·n), n)`, i.e. the *floor* `⌊bp·n⌋` for
`bp ∈ (0,1]` (not the ceiling); `batch_proportion = 1` yields the full
batch `n`. -/
theorem c5_batch_size_floor (bp : ℚ) (nx : ℕ) (h0 : 0 < bp) (h1 : bp ≤ 1) :
    (batch_size bp nx : ℤ) = ⌊bp * (nx : ℚ)⌋ ∧ batch_size 1 nx = nx := by
  constructor
  · have hle : bp * (nx : ℚ) ≤ (nx : ℚ) := by
      calc bp * (nx : ℚ) ≤ 1 * (nx : ℚ) :=
            mul_le_mul_of_nonneg_right h1 (by positivity)
        _ = (nx : ℚ) := one_mul _
    have hnn : (0 : ℤ) ≤ ⌊bp * (nx : ℚ)⌋ := Int.floor_nonneg.mpr (by positivity)
    have hfl : ⌊bp * (nx : ℚ)⌋ ≤ (nx : ℤ) := by
      calc ⌊bp * (nx : ℚ)⌋ ≤ ⌊(nx : ℚ)⌋ := Int.floor_le_floor hle
        _ = (nx : ℤ) := Int.floor_natCast nx
    unfold batch_size
    rw [min_eq_left (Int.toNat_le.mpr hfl)]
    exact Int.toNat_of_nonneg hnn
  · unfold batch_size
    rw [one_mul, Int.floor_natCast]
    simp

/-- C5 counterexample: with `batch_proportion = 1/2` and `n = 3` the
code draws `⌊3/2⌋ = 1` indices while the claim's ceiling would be 2. -/
theorem c5_counterexample :
    batch_size (1/2) 3 = 1 ∧ (⌈(1/2 : ℚ) * ((3 : ℕ) : ℚ)⌉ : ℤ) = 2 := by
  have h1 : ⌊(1/2 : ℚ) * ((3 : ℕ) : ℚ)⌋ = 1 := by
    apply Int.floor_eq_iff.mpr
    constructor <;> norm_num
  have h2 : ⌈(1/2 : ℚ) * ((3 : ℕ) : ℚ)⌉ = 2 := by
    apply Int.ceil_eq_iff.mpr
    constructor <;> norm_num
  refine ⟨?_, h2⟩
  unfold batch_size
  rw [h1]
  rfl

/-- Witness for C5 at `bp = 1/2`, `n = 3`. -/
theorem c5_witness :
    ((batch_size (1/2) 3 : ℤ) = ⌊(1/2 : ℚ) * ((3 : ℕ) : ℚ)⌋) ∧ batch_size 1 3 = 3 :=
  c5_batch_size_floor (1/2) 3 (by norm_num) (by norm_num)

/-! ### Claim C7 -/

/-- C7 (amended): `SmoothCFTest.construct_z` rejects every row-count
mismatch with a `ValueError`; the `MeanEmbeddingTest` statistic path has
no explicit check — its `Z = g - h` raises only when numpy broadcasting
fails, i.e. exactly when neither sample has a single row. -/
theorem c7_row_count_check (fexp fsin fcos : ℚ → ℚ) {nx ny dd JJ : ℕ}
    (X : Matrix (Fin nx) (Fin dd) ℚ) (Y : Matrix (Fin ny) (Fin dd) ℚ)
    (T : Matrix (Fin JJ) (Fin dd) ℚ) (gw : ℚ) (h : nx ≠ ny) :
    construct_z_checked fexp fsin fcos X Y T gw = none ∧
    (broadcastRows nx ny = none ↔ nx ≠ 1 ∧ ny ≠ 1) := by
  refine ⟨dif_neg h, ?_⟩
  by_cases h1 : nx = 1
  · subst h1
    simp [broadcastRows, h]
  · by_cases h2 : ny = 1
    · subst h2
      simp [broadcastRows, h, h1]
    · simp [broadcastRows, h, h1, h2]

/-- C7 counterexample: with `nx = 1 ≠ 2 = ny` the location-based path
does *not* raise — numpy silently broadcasts the one row of `g` against
the two rows of `h`. -/
theorem c7_counterexample : (1 : ℕ) ≠ 2 ∧ broadcastRows 1 2 = some 2 := by
  constructor
  · decide
  · decide

/-- Witness for C7 at `nx = 2`, `ny = 3`. -/
theorem c7_witness :
    construct_z_checked id id id (0 : Matrix (Fin 2) (Fin 1) ℚ)
        (0 : Matrix (Fin 3) (Fin 1) ℚ) (0 : Matrix (Fin 1) (Fin 1) ℚ) 1 = none ∧
    (broadcastRows 2 3 = none ↔ 2 ≠ 1 ∧ 3 ≠ 1) :=
  c7_row_count_check id id id 0 0 0 1 (by decide)

/-! ### Claim C10 -/

/-- C10: the T update divides the gradient by its Euclidean norm with no
guard against a zero norm.  Assuming only that the external square root
satisfies `√0 = 0` and `√x ≠ 0` for `x > 0`: a zero gradient makes the
update divide by zero, producing non-finite entries (`none`) rather than
leaving T unchanged, while any nonzero gradient yields finite entries. -/
theorem c10_T_update_div_by_zero {J d : ℕ} (T_step : ℚ) (itPow : ℕ → ℚ)
    (sqrtQ : ℚ → ℚ) (it : ℕ) (T : Matrix (Fin J) (Fin d) ℚ)
    (hs0 : sqrtQ 0 = 0) (hpos : ∀ x : ℚ, 0 < x → sqrtQ x ≠ 0) :
    T_update_finite T_step itPow sqrtQ it T 0 = none ∧
    T_update_finite T_step itPow sqrtQ it T 0 ≠ some T ∧
    ∀ graT : Matrix (Fin J) (Fin d) ℚ, graT ≠ 0 →
      (T_update_finite T_step itPow sqrtQ it T graT).isSome = true := by
  have hz : gra_T_norm sqrtQ (0 : Matrix (Fin J) (Fin d) ℚ) = 0 := by
    simp [gra_T_norm, hs0]
  have h1 : T_update_finite T_step itPow sqrtQ it T 0 = none := by
    unfold T_update_finite
    rw [if_pos hz]
  refine ⟨h1, by rw [h1]; exact fun hco => Option.noConfusion hco, ?_⟩
  intro graT hne
  obtain ⟨i, j, hij⟩ : ∃ i j, graT i j ≠ 0 := by
    by_contra hall
    push_neg at hall
    exact hne (by ext i j; simpa using hall i j)
  have hsum : 0 < ∑ i, ∑ j, graT i j ^ 2 := by
    have hterm : 0 < graT i j ^ 2 := by positivity
    refine Finset.sum_pos' (fun a _ => Finset.sum_nonneg fun b _ => sq_nonneg _)
      ⟨i, Finset.mem_univ i, Finset.sum_pos' (fun b _ => sq_nonneg _)
        ⟨j, Finset.mem_univ j, hterm⟩⟩
  have hnz : gra_T_norm sqrtQ graT ≠ 0 := hpos _ hsum
  unfold T_update_finite
  rw [if_neg hnz]
  rfl

/-- Witness for C10: `sqrtQ = id`, `J = d = 1`, zero T, zero gradient. -/
theorem c10_witness :
    T_update_finite 1 (fun _ => 1) id 1 (0 : Matrix (Fin 1) (Fin 1) ℚ) 0 = none :=
  (c10_T_update_div_by_zero 1 (fun _ => 1) id 1 0 rfl (fun _ hx => ne_of_gt hx)).1

/-! ### Loop unfolding lemmas -/

section LoopLemmas

variable {R : Type*} {J d : ℕ}

lemma optTGo_succ_none {draw : R → R}
    {step : R → OptTState J d → Option (ℚ × OptTState J d)} {tol : ℚ}
    {fuel t : ℕ} {g : R} {st : OptTState J d} {sPrev : ℚ}
    (h : step g st = none) :
    optTGo draw step tol (fuel + 1) t g st sPrev = (draw g, []) := by
  rw [optTGo, h]

lemma optTGo_succ_some {draw : R → R}
    {step : R → OptTState J d → Option (ℚ × OptTState J d)} {tol : ℚ}
    {fuel t : ℕ} {g : R} {st st1 : OptTState J d} {sPrev s : ℚ}
    (h : step g st = some (s, st1)) :
    optTGo draw step tol (fuel + 1) t g st sPrev =
      if 2 ≤ t ∧ |s - sPrev| ≤ tol then (draw g, [(s, st1.T, st1.gamma_sq ^ 2)])
      else
        ((optTGo draw step tol fuel (t + 1) (draw g) st1 s).1,
          (s, st1.T, st1.gamma_sq ^ 2) :: (optTGo draw step tol fuel (t + 1) (draw g) st1 s).2) := by
  rw [optTGo, h]

lemma optGGo_succ_none {draw : R → R}
    {step : R → OptGState → Option (ℚ × OptGState)} {tol : ℚ}
    {fuel t : ℕ} {g : R} {st : OptGState} {sPrev : ℚ}
    (h : step g st = none) :
    optGGo draw step tol (fuel + 1) t g st sPrev = none := by
  rw [optGGo, h]

lemma optGGo_succ_some {draw : R → R}
    {step : R → OptGState → Option (ℚ × OptGState)} {tol : ℚ}
    {fuel t : ℕ} {g : R} {st st1 : OptGState} {sPrev s : ℚ}
    (h : step g st = some (s, st1)) :
    optGGo draw step tol (fuel + 1) t g st sPrev =
      if 2 ≤ t ∧ |s - sPrev| ≤ tol then some (draw g, [(s, st1.gamma_sq ^ 2)])
      else
        (optGGo draw step tol fuel (t + 1) (draw g) st1 s).map fun r =>
          (r.1, (s, st1.gamma_sq ^ 2) :: r.2) := by
  rw [optGGo, h]

lemma getLast?_cons_isSome {α : Type*} (a : α) (l : List α) :
    ((a :: l).getLast?).isSome = true := by
  induction l generalizing a with
  | nil => rfl
  | cons b l ih => rw [List.getLast?_cons_cons]; exact ih b

end LoopLemmas

/-! ### Claim C2 -/

/-- C2 (amended): the joint optimizer absorbs evaluation faults at any
iteration after the first — for *every* step function it returns a
result exactly when the first evaluation succeeds, and whenever it
returns, the returned `(T, bandwidth)` are the last entries of the
returned (truncated) traces, which all have the same length.  The
width-only optimizer has no `try/except`: a failing evaluation
propagates out (no result). -/
theorem c2_fault_handling {R : Type*} (draw : R → R) {J d : ℕ}
    (step : R → OptTState J d → Option (ℚ × OptTState J d))
    (stepG : R → OptGState → Option (ℚ × OptGState))
    (max_iter : ℕ) (tol : ℚ) (g0 gG : R) (st0 : OptTState J d) (stG : OptGState)
    (hmi : 1 ≤ max_iter) :
    ((optimize_T_gaussian_width draw step max_iter tol g0 st0).2.isSome =
      (step g0 st0).isSome) ∧
    (∀ T gam S Ts gams,
      (optimize_T_gaussian_width draw step max_iter tol g0 st0).2 =
          some (T, gam, (S, Ts, gams)) →
        Ts.getLast? = some T ∧ gams.getLast? = some gam ∧
        S.length = Ts.length ∧ Ts.length = gams.length) ∧
    ((∀ g st, stepG g st = none) →
      optimize_gaussian_width draw stepG max_iter tol gG stG = none) := by
  refine ⟨?_, ?_, ?_⟩
  · obtain ⟨k, rfl⟩ : ∃ k, max_iter = k + 1 := ⟨max_iter - 1, by omega⟩
    cases hstep : step g0 st0 with
    | none =>
      simp [optimize_T_gaussian_width, optTGo_succ_none hstep]
    | some v =>
      obtain ⟨s, st1⟩ := v
      simp only [optimize_T_gaussian_width, optTGo_succ_some hstep, Option.isSome_some]
      rw [if_neg (fun hco => by omega)]
      simp [getLast?_cons_isSome]
  · intro T gam S Ts gams h
    simp only [optimize_T_gaussian_width] at h
    obtain ⟨e, he, hF⟩ := Option.map_eq_some'.mp h
    simp only [Prod.mk.injEq] at hF
    obtain ⟨h1, h2, h3, h4, h5⟩ := hF
    subst h1 h2 h3 h4 h5
    refine ⟨?_, ?_, by simp, by simp⟩
    · rw [getLast?_map_eq, he, Option.map_some']
    · rw [getLast?_map_eq, he, Option.map_some']
  · intro hfail
    cases max_iter with
    | zero => simp [optimize_gaussian_width]
    | succ k =>
      simp [optimize_gaussian_width, optGGo_succ_none (hfail _ _)]

/-- Witness for C2 (joint-variant clause) at a concrete instantiation. -/
theorem c2_witness :
    (optimize_T_gaussian_width Nat.succ
        (fun (_ : ℕ) (st : OptTState 1 1) => some ((0 : ℚ), st)) 1 (1/1000) 0
        ⟨0, 1, 1⟩).2.isSome =
      ((fun (_ : ℕ) (st : OptTState 1 1) => some ((0 : ℚ), st)) 0 ⟨0, 1, 1⟩).isSome :=
  (c2_fault_handling Nat.succ (fun _ st => some ((0 : ℚ), st))
    (fun _ _ => none) 1 (1/1000) 0 0 ⟨0, 1, 1⟩ ⟨1, 1⟩ (le_refl 1)).1

/-- C2 counterexample: in the width-only variant an evaluation fault at
the third iteration — after two successful iterations whose (T,
bandwidth) would be available — propagates: the call produces no result
instead of the last valid state. -/
theorem c2_counterexample :
    optimize_gaussian_width Nat.succ
      (fun (g : ℕ) (st : OptGState) => if g ≤ 1 then some ((g : ℚ), st) else none)
      5 (1/1000) 0 ⟨1, 1⟩ = none := by
  norm_num [optimize_gaussian_width, optGGo]

/-! ### Claim C3 -/

/-- C3 (amended): when the recorded objective values of the second and
third iteration differ by at most `tol_fun` (in particular for an
objective constant from iteration 2 onward) and `max_iter ≥ 3`, both
optimizer loops stop at the third iteration (`t = 2`); the joint variant
returns traces of length exactly 3, but the width-only variant truncates
one entry further (`S[:t]`) and returns traces of length 2. -/
theorem c3_convergence_trace {R : Type*} (draw : R → R) {J d : ℕ}
    (F : R → ℚ) (upd : R → OptTState J d → OptTState J d)
    (step : R → OptTState J d → Option (ℚ × OptTState J d))
    (G : R → ℚ) (updG : R → OptGState → OptGState)
    (stepG : R → OptGState → Option (ℚ × OptGState))
    (max_iter : ℕ) (tol : ℚ) (g0 gG : R) (st0 : OptTState J d) (stG : OptGState)
    (hstep : ∀ g st, step g st = some (F g, upd g st))
    (hstepG : ∀ g st, stepG g st = some (G g, updG g st))
    (hconv : |F (draw (draw g0)) - F (draw g0)| ≤ tol)
    (hconvG : |G (draw (draw gG)) - G (draw gG)| ≤ tol)
    (hmi : 3 ≤ max_iter) :
    (∃ T gam S Ts gams,
      (optimize_T_gaussian_width draw step max_iter tol g0 st0).2 =
          some (T, gam, (S, Ts, gams)) ∧
        S.length = 3 ∧ Ts.length = 3 ∧ gams.length = 3) ∧
    (∃ gf gam S gams,
      optimize_gaussian_width draw stepG max_iter tol gG stG =
          some (gf, gam, (S, gams)) ∧
        S.length = 2 ∧ gams.length = 2) := by
  obtain ⟨k, rfl⟩ : ∃ k, max_iter = k + 3 := ⟨max_iter - 3, by omega⟩
  constructor
  · simp only [optimize_T_gaussian_width]
    rw [optTGo_succ_some (hstep g0 st0), if_neg (fun hco => absurd hco.1 (by omega)),
      optTGo_succ_some (hstep _ _), if_neg (fun hco => absurd hco.1 (by omega)),
      optTGo_succ_some (hstep _ _), if_pos ⟨le_refl 2, hconv⟩]
    exact ⟨_, _, _, _, _, rfl, rfl, rfl, rfl⟩
  · simp only [optimize_gaussian_width]
    rw [if_neg (by omega)]
    rw [optGGo_succ_some (hstepG gG stG), if_neg (fun hco => absurd hco.1 (by omega)),
      optGGo_succ_some (hstepG _ _), if_neg (fun hco => absurd hco.1 (by omega)),
      optGGo_succ_some (hstepG _ _), if_pos ⟨le_refl 2, hconvG⟩]
    simp only [Option.map_some']
    exact ⟨_, _, _, _, rfl, rfl, rfl⟩

/-- C3 counterexample: with a constant objective (hence constant from
iteration 2 onward), `tol_fun = 1/1000` and `max_iter = 400`, the
width-only optimizer stops at iteration 3 but its returned trace has
length 2, not 3. -/
theorem c3_counterexample :
    ((optimize_gaussian_width Nat.succ
        (fun (_ : ℕ) (st : OptGState) => some ((5 : ℚ), st)) 400 (1/1000) 0
        ⟨1, 1⟩).map fun r => (r.2.2.1.length, r.2.2.2.length)) = some (2, 2) ∧
      (2 : ℕ) ≠ 3 := by
  constructor
  · simp only [optimize_gaussian_width]
    rw [if_neg (by norm_num)]
    rw [show (400 : ℕ) = 399 + 1 from rfl, optGGo_succ_some rfl,
      if_neg (fun hco => absurd hco.1 (by omega)),
      show (399 : ℕ) = 398 + 1 from rfl, optGGo_succ_some rfl,
      if_neg (fun hco => absurd hco.1 (by omega)),
      show (398 : ℕ) = 397 + 1 from rfl, optGGo_succ_some rfl,
      if_pos ⟨le_refl 2, by norm_num⟩]
    rfl
  · decide

/-- Witness for C3 at a concrete instantiation (objective constant 5,
tol_fun = 1/1000, max_iter = 400): the joint variant's trace has length
3, the width-only variant's has length 2. -/
theorem c3_witness :
    ((optimize_T_gaussian_width Nat.succ
        (fun (_ : ℕ) (st : OptTState 1 1) => some ((5 : ℚ), st)) 400 (1/1000) 0
        ⟨0, 1, 1⟩).2.map fun r => r.2.2.1.length) = some 3 ∧
    ((optimize_gaussian_width Nat.succ
        (fun (_ : ℕ) (st : OptGState) => some ((5 : ℚ), st)) 400 (1/1000) 0
        ⟨1, 1⟩).map fun r => r.2.2.1.length) = some 2 := by
  obtain ⟨⟨T, gam, S, Ts, gams, h, hS, _, _⟩, ⟨gf, gam2, S2, gams2, h2, hS2, _⟩⟩ :=
    c3_convergence_trace Nat.succ (fun _ => (5 : ℚ)) (fun _ st => st)
      (fun _ st => some ((5 : ℚ), st)) (fun _ => (5 : ℚ)) (fun _ st => st)
      (fun _ st => some ((5 : ℚ), st)) 400 (1/1000) 0 0 ⟨0, 1, 1⟩ ⟨1, 1⟩
      (fun _ _ => rfl) (fun _ _ => rfl) (by norm_num) (by norm_num) (by norm_num)
  constructor
  · rw [h, Option.map_some']
    exact congrArg some hS
  · rw [h2, Option.map_some']
    exact congrArg some hS2

/-! ### Claim C8 -/

lemma optTGo_gams_sq {R : Type*} {J d : ℕ} (draw : R → R)
    (step : R → OptTState J d → Option (ℚ × OptTState J d)) (tol : ℚ) :
    ∀ (fuel t : ℕ) (g : R) (st : OptTState J d) (sPrev : ℚ),
      ∀ e ∈ (optTGo draw step tol fuel t g st sPrev).2, ∃ v : ℚ, e.2.2 = v ^ 2 := by
  intro fuel
  induction fuel with
  | zero => intro t g st sPrev e he; simp [optTGo] at he
  | succ fuel ih =>
    intro t g st sPrev e he
    cases hstep : step g st with
    | none =>
      rw [optTGo_succ_none hstep] at he
      simp at he
    | some v =>
      obtain ⟨s, st1⟩ := v
      rw [optTGo_succ_some hstep] at he
      by_cases hc : 2 ≤ t ∧ |s - sPrev| ≤ tol
      · rw [if_pos hc] at he
        simp only [List.mem_singleton] at he
        exact ⟨st1.gamma_sq, by rw [he]⟩
      · rw [if_neg hc] at he
        simp only [List.mem_cons] at he
        rcases he with he | he
        · exact ⟨st1.gamma_sq, by rw [he]⟩
        · exact ih (t + 1) (draw g) st1 s e he

lemma optGGo_gams_sq {R : Type*} (draw : R → R)
    (step : R → OptGState → Option (ℚ × OptGState)) (tol : ℚ) :
    ∀ (fuel t : ℕ) (g : R) (st : OptGState) (sPrev : ℚ) (r : R × List (ℚ × ℚ)),
      optGGo draw step tol fuel t g st sPrev = some r →
        ∀ e ∈ r.2, ∃ v : ℚ, e.2 = v ^ 2 := by
  intro fuel
  induction fuel with
  | zero =>
    intro t g st sPrev r hr e he
    simp only [optGGo, Option.some.injEq] at hr
    rw [← hr] at he
    simp at he
  | succ fuel ih =>
    intro t g st sPrev r hr e he
    cases hstep : step g st with
    | none => rw [optGGo_succ_none hstep] at hr; exact absurd hr (by simp)
    | some v =>
      obtain ⟨s, st1⟩ := v
      rw [optGGo_succ_some hstep] at hr
      by_cases hc : 2 ≤ t ∧ |s - sPrev| ≤ tol
      · rw [if_pos hc, Option.some.injEq] at hr
        rw [← hr] at he
        simp only [List.mem_singleton] at he
        exact ⟨st1.gamma_sq, by rw [he]⟩
      · rw [if_neg hc, Option.map_eq_some'] at hr
        obtain ⟨r0, hr0, hrr⟩ := hr
        rw [← hrr] at he
        simp only [List.mem_cons] at he
        rcases he with he | he
        · exact ⟨st1.gamma_sq, by rw [he]⟩
        · exact ih (t + 1) (draw g) st1 s r0 hr0 e he

/-- C8 (amended): every bandwidth recorded in the trace and the
bandwidth returned at the end, in both optimizer variants, is the square
of the internal unconstrained variable and hence *nonnegative*; it is
strictly positive exactly when the internal variable is nonzero — which
the update rule does not guarantee, so zero is attainable. -/
theorem c8_bandwidth_square {R : Type*} (draw : R → R) {J d : ℕ}
    (step : R → OptTState J d → Option (ℚ × OptTState J d))
    (stepG : R → OptGState → Option (ℚ × OptGState))
    (max_iter : ℕ) (tol : ℚ) (g0 gG : R) (st0 : OptTState J d) (stG : OptGState) :
    (∀ T gam S Ts gams,
      (optimize_T_gaussian_width draw step max_iter tol g0 st0).2 =
          some (T, gam, (S, Ts, gams)) →
        (∃ v : ℚ, gam = v ^ 2) ∧ (∀ x ∈ gams, ∃ v : ℚ, x = v ^ 2) ∧
          0 ≤ gam ∧ ∀ x ∈ gams, 0 ≤ x) ∧
    (∀ gf gam S gams,
      optimize_gaussian_width draw stepG max_iter tol gG stG =
          some (gf, gam, (S, gams)) →
        (∃ v : ℚ, gam = v ^ 2) ∧ (∀ x ∈ gams, ∃ v : ℚ, x = v ^ 2) ∧
          0 ≤ gam ∧ ∀ x ∈ gams, 0 ≤ x) := by
  constructor
  · intro T gam S Ts gams h
    simp only [optimize_T_gaussian_width] at h
    obtain ⟨e, he, hF⟩ := Option.map_eq_some'.mp h
    simp only [Prod.mk.injEq] at hF
    obtain ⟨h1, h2, h3, h4, h5⟩ := hF
    subst h1 h2 h3 h4 h5
    have hsq : ∀ x ∈ (optTGo draw step tol max_iter 0 g0 st0 0).2.map
        (fun a => a.2.2), ∃ v : ℚ, x = v ^ 2 := by
      intro x hx
      obtain ⟨a, ha, rfl⟩ := List.mem_map.mp hx
      exact optTGo_gams_sq draw step tol max_iter 0 g0 st0 0 a ha
    have hgam : ∃ v : ℚ, e.2.2 = v ^ 2 :=
      optTGo_gams_sq draw step tol max_iter 0 g0 st0 0 e (mem_of_getLast?_eq he)
    refine ⟨hgam, hsq, ?_, fun x hx => ?_⟩
    · obtain ⟨v, hv⟩ := hgam
      rw [hv]; exact sq_nonneg v
    · obtain ⟨v, hv⟩ := hsq x hx
      rw [hv]; exact sq_nonneg v
  · intro gf gam S gams h
    simp only [optimize_gaussian_width] at h
    split at h
    · exact absurd h (by simp)
    · rw [Option.bind_eq_some] at h
      obtain ⟨r, hr, hmap⟩ := h
      obtain ⟨e, he, hF⟩ := Option.map_eq_some'.mp hmap
      simp only [Prod.mk.injEq] at hF
      obtain ⟨h1, h2, h3, h4⟩ := hF
      subst h1 h2 h3 h4
      have hsq : ∀ x ∈ r.2.dropLast.map (fun a => a.2), ∃ v : ℚ, x = v ^ 2 := by
        intro x hx
        obtain ⟨a, ha, rfl⟩ := List.mem_map.mp hx
        exact optGGo_gams_sq draw stepG tol max_iter 0 gG stG 0 r hr a
          (List.mem_of_mem_dropLast ha)
      have hgam : ∃ v : ℚ, e.2 = v ^ 2 :=
        optGGo_gams_sq draw stepG tol max_iter 0 gG stG 0 r hr e
          (List.mem_of_mem_dropLast (mem_of_getLast?_eq he))
      refine ⟨hgam, hsq, ?_, fun x hx => ?_⟩
      · obtain ⟨v, hv⟩ := hgam
        rw [hv]; exact sq_nonneg v
      · obtain ⟨v, hv⟩ := hsq x hx
        rw [hv]; exact sq_nonneg v

/-- C8 counterexample: with the source's own update formulas
(`funcStep`), a gradient value of exactly -1 at the first iteration
(`gamma_sq = 1`, `gwidth_step_size = 1`, `it = 1`, so the clipped sign
step is `-1`) drives the internal variable to 0, and the *returned*
bandwidth is `0² = 0` — not strictly positive.  (`itPow` and `sqrtQ` are
instantiated faithfully at the only points used: `1**0.5 = 1` and
`√1 = 1`.) -/
theorem c8_counterexample :
    ((optimize_T_gaussian_width Nat.succ
        (funcStep 1 1 (fun _ => 1) id
          (fun (_ : ℕ) (_ : OptTState 1 1) => some (7, Matrix.of fun _ _ => (1 : ℚ), -1)))
        1 (1/1000) 0 ⟨0, 1, 1⟩).2.map fun r => r.2.1) = some 0 ∧ ¬ ((0 : ℚ) < 0) := by
  constructor
  · simp only [optimize_T_gaussian_width]
    rw [optTGo_succ_some rfl, if_neg (fun hco => absurd hco.1 (by omega))]
    simp only [optTGo]
    norm_num [gamma_sq_update, sgn]
  · norm_num

/-- Witness for C8 at a concrete run (constant step, one iteration). -/
theorem c8_witness :
    (∃ v : ℚ, (1 : ℚ) = v ^ 2) ∧ (∀ x ∈ ([1] : List ℚ), ∃ v : ℚ, x = v ^ 2) ∧
      (0 : ℚ) ≤ 1 ∧ ∀ x ∈ ([1] : List ℚ), (0 : ℚ) ≤ x :=
  (c8_bandwidth_square Nat.succ (fun (_ : ℕ) (st : OptTState 1 1) => some ((5 : ℚ), st))
      (fun _ st => some ((5 : ℚ), st)) 1 (1/1000) 0 0 ⟨0, 1, 1⟩ ⟨1, 1⟩).1
    0 1 [5] [0] [1]
    (by
      simp only [optimize_T_gaussian_width]
      rw [optTGo_succ_some rfl, if_neg (fun hco => absurd hco.1 (by omega))]
      simp only [optTGo]
      norm_num)

/-! ### Claim C9 -/

lemma optTGo_rng_advance {R : Type*} {J d : ℕ} (draw : R → R)
    (step : R → OptTState J d → Option (ℚ × OptTState J d)) (tol : ℚ) :
    ∀ (fuel t : ℕ) (g : R) (st : OptTState J d) (sPrev : ℚ),
      ∃ k, k ≤ fuel ∧ (1 ≤ fuel → 1 ≤ k) ∧
        (optTGo draw step tol fuel t g st sPrev).1 = draw^[k] g := by
  intro fuel
  induction fuel with
  | zero => intro t g st sPrev; exact ⟨0, le_refl 0, by omega, rfl⟩
  | succ fuel ih =>
    intro t g st sPrev
    cases hstep : step g st with
    | none =>
      refine ⟨1, by omega, fun _ => le_refl 1, ?_⟩
      rw [optTGo_succ_none hstep]
      simp
    | some v =>
      obtain ⟨s, st1⟩ := v
      by_cases hc : 2 ≤ t ∧ |s - sPrev| ≤ tol
      · refine ⟨1, by omega, fun _ => le_refl 1, ?_⟩
        rw [optTGo_succ_some hstep, if_pos hc]
        simp
      · obtain ⟨k, hk1, _, hkeq⟩ := ih (t + 1) (draw g) st1 s
        refine ⟨k + 1, by omega, by omega, ?_⟩
        rw [optTGo_succ_some hstep, if_neg hc, Function.iterate_succ_apply]
        exact hkeq

/-- C9 (amended): with a fixed seed the initial matrix T₀ is a function
of the seed alone — identical across runs, independent of the incoming
global random state (save/seed/draw/restore around the draw of T₀).
However, the save-and-restore window does *not* cover the mini-batch
sampling: the global state is restored *before* the optimization loop,
and the `np.random.choice` of each of the `k ≥ 1` executed iterations
advances it, so after the call the global state is the pre-call state
advanced `k` times, not the unchanged pre-call state. -/
theorem c9_seed_locality {R : Type*} {J d : ℕ} (seedF : ℕ → R)
    (randn : R → Matrix (Fin J) (Fin d) ℚ × R) (draw : R → R)
    (step : R → OptTState J d → Option (ℚ × OptTState J d))
    (max_iter : ℕ) (tol : ℚ) (seed : ℕ) (gamma_sq_init : ℚ) (g0 : R)
    (hmi : 1 ≤ max_iter) :
    (∀ g g' : R,
      (optimize_freqs_width seedF randn draw step max_iter tol seed gamma_sq_init g).1 =
        (optimize_freqs_width seedF randn draw step max_iter tol seed gamma_sq_init g').1) ∧
    (optimize_freqs_width seedF randn draw step max_iter tol seed gamma_sq_init g0).1 =
      (randn (seedF seed)).1 ∧
    ∃ k, 1 ≤ k ∧ k ≤ max_iter ∧
      (optimize_freqs_width seedF randn draw step max_iter tol seed gamma_sq_init g0).2.1 =
        draw^[k] g0 := by
  refine ⟨fun g g' => rfl, rfl, ?_⟩
  obtain ⟨k, hk, h1, heq⟩ := optTGo_rng_advance draw step tol max_iter 0 g0
    ⟨(randn (seedF seed)).1, gamma_sq_init, 1⟩ 0
  exact ⟨k, h1 hmi, hk, heq⟩

/-- C9 counterexample: a concrete run in which the global random state
observed after the call (`3`) differs from the state before the call
(`0`) — the loop's three batch draws advanced the restored state. -/
theorem c9_counterexample :
    (optimize_freqs_width (fun s => s) (fun (g : ℕ) => ((0 : Matrix (Fin 1) (Fin 1) ℚ), g))
        Nat.succ (fun (_ : ℕ) (st : OptTState 1 1) => some ((5 : ℚ), st))
        400 (1/1000) 7 1 0).2.1 = 3 ∧ (3 : ℕ) ≠ 0 := by
  constructor
  · simp only [optimize_freqs_width, optimize_T_gaussian_width]
    rw [show (400 : ℕ) = 399 + 1 from rfl, optTGo_succ_some rfl,
      if_neg (fun hco => absurd hco.1 (by omega)),
      show (399 : ℕ) = 398 + 1 from rfl, optTGo_succ_some rfl,
      if_neg (fun hco => absurd hco.1 (by omega)),
      show (398 : ℕ) = 397 + 1 from rfl, optTGo_succ_some rfl,
      if_pos ⟨le_refl 2, by norm_num⟩]
  · decide

/-- Witness for C9: the drawn T₀ equals `randn (seedF seed)` regardless
of the incoming state. -/
theorem c9_witness :
    (optimize_freqs_width (fun s => s) (fun (g : ℕ) => ((0 : Matrix (Fin 1) (Fin 1) ℚ), g))
        Nat.succ (fun (_ : ℕ) (st : OptTState 1 1) => some ((5 : ℚ), st))
        400 (1/1000) 7 1 0).1 =
      ((fun (g : ℕ) => ((0 : Matrix (Fin 1) (Fin 1) ℚ), g)) ((fun (s : ℕ) => s) 7)).1 :=
  (c9_seed_locality (fun s => s) (fun (g : ℕ) => ((0 : Matrix (Fin 1) (Fin 1) ℚ), g))
    Nat.succ (fun _ st => some ((5 : ℚ), st)) 400 (1/1000) 7 1 0 (by norm_num)).2.1

/-! ### Concrete evaluations (used by the C1 witness and the C4
counterexample/witness) -/

lemma det_two (A : Matrix (Fin 1 ⊕ Fin 1) (Fin 1 ⊕ Fin 1) ℚ) :
    A.det = A (.inl 0) (.inl 0) * A (.inr 0) (.inr 0) -
      A (.inl 0) (.inr 0) * A (.inr 0) (.inl 0) := by
  rw [← Matrix.det_reindex_self finSumFinEquiv A, Matrix.det_fin_two]
  simp [Matrix.reindex_apply]
  rw [show finSumFinEquiv.symm (0 : Fin (1+1)) = Sum.inl 0 from rfl,
    show finSumFinEquiv.symm (1 : Fin (1+1)) = Sum.inr 0 from rfl]

lemma construct_z_eval_c4 :
    construct_z (fun _ => 1) id (fun x => x * x) Xex 0 Tex 1 = Zc4 := by
  ext i j
  rcases j with j | j <;> fin_cases j <;> fin_cases i <;>
    simp [construct_z, scf_features, Zc4, Xex, Tex, Fin.sum_univ_one] <;> norm_num

lemma colMean_Zc4 : colMean Zc4 = Sum.elim (fun _ => (1 : ℚ)) (fun _ => 5/3) := by
  funext j
  rcases j with j | j <;> fin_cases j <;>
    simp [colMean, Zc4, Fin.sum_univ_three] <;> norm_num

lemma npCov_Zc4 : npCov Zc4 = Mcov4 := by
  ext j k
  simp only [npCov, Matrix.smul_apply, scatter, Matrix.of_apply, centered, colMean_Zc4]
  rcases j with j | j <;> fin_cases j <;> rcases k with k | k <;> fin_cases k <;>
    simp [Zc4, Mcov4, Fin.sum_univ_three] <;> norm_num

lemma optSig_Zc4 : optSig Zc4 = MSig4 := by
  ext j k
  simp only [optSig, Matrix.smul_apply, scatter, Matrix.of_apply, centered, colMean_Zc4]
  rcases j with j | j <;> fin_cases j <;> rcases k with k | k <;> fin_cases k <;>
    simp [Zc4, MSig4, Fin.sum_univ_three] <;> norm_num

lemma scf_stat_c4 :
    scf_compute_stat (fun _ => 1) id (fun x => x * x) Xex 0 Tex 1 = some 4 := by
  unfold scf_compute_stat
  rw [construct_z_eval_c4]
  unfold t2_stat
  rw [npCov_Zc4, colMean_Zc4, npSolve, if_neg (by rw [det_two]; norm_num [Mcov4])]
  rw [Option.map_some', Option.some.injEq]
  simp [Matrix.dotProduct, Fintype.sum_sum_type, Matrix.cramer_apply, det_two,
    Matrix.updateColumn_apply, Mcov4]
  norm_num

lemma opt_obj_c4 :
    scf_opt_objective (fun _ => 1) id (fun x => x * x) Xex 0 Tex 1 = 6 := by
  unfold scf_opt_objective
  rw [construct_z_eval_c4]
  unfold opt_objective
  rw [optSig_Zc4, colMean_Zc4, matInv_mulVec]
  simp [Matrix.dotProduct, Fintype.sum_sum_type, Matrix.cramer_apply, det_two,
    Matrix.updateColumn_apply, MSig4]
  norm_num

lemma construct_z_eval_c1 :
    construct_z id id (fun x => x + 1) Xex 0 Tex 1 = Zc1 := by
  ext i j
  rcases j with j | j <;> fin_cases j <;> fin_cases i <;>
    simp [construct_z, scf_features, Zc1, Xex, Tex, Fin.sum_univ_one] <;> norm_num

lemma colMean_Zc1 : colMean Zc1 = Sum.elim (fun _ => (-3/2 : ℚ)) (fun _ => -7/3) := by
  funext j
  rcases j with j | j <;> fin_cases j <;>
    simp [colMean, Zc1, Fin.sum_univ_three] <;> norm_num

lemma npCov_Zc1 : npCov Zc1 = Mcov1 := by
  ext j k
  simp only [npCov, Matrix.smul_apply, scatter, Matrix.of_apply, centered, colMean_Zc1]
  rcases j with j | j <;> fin_cases j <;> rcases k with k | k <;> fin_cases k <;>
    simp [Zc1, Mcov1, Fin.sum_univ_three] <;> norm_num

lemma scf_stat_c1 :
    scf_compute_stat id id (fun x => x + 1) Xex 0 Tex 1 = some 4 := by
  unfold scf_compute_stat
  rw [construct_z_eval_c1]
  unfold t2_stat
  rw [npCov_Zc1, colMean_Zc1, npSolve, if_neg (by rw [det_two]; norm_num [Mcov1])]
  rw [Option.map_some', Option.some.injEq]
  simp [Matrix.dotProduct, Fintype.sum_sum_type, Matrix.cramer_apply, det_two,
    Matrix.updateColumn_apply, Mcov1]
  norm_num

lemma me_z_c1 : me_construct_z id Xex 0 Tex 1 = Zme1 := by
  ext i j
  fin_cases j <;> fin_cases i <;>
    simp [me_construct_z, asym_gauss_kernel, Zme1, Xex, Tex, Fin.sum_univ_one] <;> norm_num

lemma colMean_Zme1 : colMean Zme1 = fun _ => (1/3 : ℚ) := by
  funext j
  fin_cases j
  simp [colMean, Zme1, Fin.sum_univ_three]

lemma npCov_Zme1 : npCov Zme1 = Matrix.of fun _ _ => (1/3 : ℚ) := by
  ext j k
  simp only [npCov, Matrix.smul_apply, scatter, Matrix.of_apply, centered, colMean_Zme1]
  fin_cases j <;> fin_cases k <;>
    simp [Zme1, Fin.sum_univ_three] <;> norm_num

lemma me_stat_c1 : me_compute_stat id Xex 0 Tex 1 = some 1 := by
  unfold me_compute_stat
  rw [me_z_c1]
  unfold t2_stat
  rw [npCov_Zme1, colMean_Zme1, npSolve, if_neg (by rw [Matrix.det_fin_one]; norm_num)]
  rw [Option.map_some', Option.some.injEq]
  simp [Matrix.dotProduct, Fin.sum_univ_one, Matrix.cramer_apply, Matrix.det_fin_one,
    Matrix.updateColumn_apply]

/-! ### Claim C1 -/

/-- C1: whenever the statistic computation succeeds (nonsingular
covariance), `perform_test` returns a result whose p-value is the
chi-squared survival function of the statistic with `2J` degrees of
freedom for the frequency-based test and `J` for the location-based
test; given scipy's guarantee that the survival function lies in
`[0,1]`, the p-value lies in `[0,1]`; and `h0_rejected` is exactly
`pvalue < alpha`. -/
theorem c1_perform_test_spec (chi2sf : ℚ → ℕ → ℚ) (fexp fsin fcos : ℚ → ℚ)
    {n d J : ℕ} (X Y : Matrix (Fin n) (Fin d) ℚ) (T : Matrix (Fin J) (Fin d) ℚ)
    (gw alpha s1 s2 : ℚ) (hgw : 0 < gw)
    (hsf : ∀ x k, 0 ≤ chi2sf x k ∧ chi2sf x k ≤ 1)
    (h1 : scf_compute_stat fexp fsin fcos X Y T gw = some s1)
    (h2 : me_compute_stat fexp X Y T gw = some s2) :
    ∃ r1 r2 : TestResult,
      scf_perform_test chi2sf fexp fsin fcos alpha X Y T gw = some r1 ∧
      me_perform_test chi2sf fexp alpha X Y T gw = some r2 ∧
      r1.pvalue = chi2sf s1 (2 * J) ∧ r2.pvalue = chi2sf s2 J ∧
      0 ≤ r1.pvalue ∧ r1.pvalue ≤ 1 ∧ 0 ≤ r2.pvalue ∧ r2.pvalue ≤ 1 ∧
      r1.test_stat = s1 ∧ r2.test_stat = s2 ∧ r1.alpha = alpha ∧ r2.alpha = alpha ∧
      (r1.h0_rejected = true ↔ r1.pvalue < alpha) ∧
      (r2.h0_rejected = true ↔ r2.pvalue < alpha) := by
  refine ⟨⟨alpha, chi2sf s1 (2 * J), s1, decide (chi2sf s1 (2 * J) < alpha)⟩,
    ⟨alpha, chi2sf s2 J, s2, decide (chi2sf s2 J < alpha)⟩, ?_, ?_, rfl, rfl,
    (hsf s1 (2 * J)).1, (hsf s1 (2 * J)).2, (hsf s2 J).1, (hsf s2 J).2,
    rfl, rfl, rfl, rfl, ?_, ?_⟩
  · unfold scf_perform_test
    rw [h1]
    rfl
  · unfold me_perform_test
    rw [h2]
    rfl
  · simp
  · simp

/-- Witness for C1 at concrete data (`n = 3`, `d = 1`, `J = 1`,
`chi2sf` the constant `1/2`, `alpha = 1/100`): both tests return a
result, the p-value is the sf value `1/2`, and with `1/2 ≥ alpha` the
null is not rejected. -/
theorem c1_witness :
    ((scf_perform_test (fun _ _ => (1/2 : ℚ)) id id (fun x => x + 1) (1/100) Xex 0 Tex
        1).map TestResult.pvalue) = some (1/2) ∧
    ((me_perform_test (fun _ _ => (1/2 : ℚ)) id (1/100) Xex 0 Tex 1).map
        TestResult.h0_rejected) = some false := by
  obtain ⟨r1, r2, h1, h2, hp1, hp2, _, _, _, _, _, _, _, _, hrej1, hrej2⟩ :=
    c1_perform_test_spec (fun _ _ => (1/2 : ℚ)) id id (fun x => x + 1) Xex 0 Tex
      1 (1/100) 4 1 (by norm_num) (fun x k => ⟨by norm_num, by norm_num⟩)
      scf_stat_c1 me_stat_c1
  constructor
  · rw [h1, Option.map_some', hp1]
  · rw [h2, Option.map_some']
    have hnot : ¬ (r2.pvalue < 1/100) := by rw [hp2]; norm_num
    cases hb : r2.h0_rejected
    · rfl
    · exact absurd (hrej2.mp hb) hnot

/-! ### Claim C4 -/

lemma t2_opt_ratio {n : ℕ} {m : Type*} [Fintype m] [DecidableEq m] [Nonempty m]
    (Z : Matrix (Fin n) m ℚ) (s : ℚ) (hn : 2 ≤ n) (h : t2_stat Z = some s) :
    opt_objective Z = (n : ℚ) / ((n : ℚ) - 1) * s := by
  have h2 : (2 : ℚ) ≤ (n : ℚ) := by exact_mod_cast hn
  have hn1 : ((n : ℚ) - 1) ≠ 0 := by linarith
  have hn0 : (n : ℚ) ≠ 0 := by linarith
  have hdetCov : (npCov Z).det ≠ 0 := by
    intro hd
    rw [t2_stat, npSolve, if_pos hd] at h
    exact Option.noConfusion h
  have hx : npSolve (npCov Z) (colMean Z) =
      some (matInv (npCov Z) *ᵥ colMean Z) := npSolve_of_det_ne _ _ hdetCov
  rw [t2_stat, hx, Option.map_some', Option.some.injEq] at h
  have hs : s = (n : ℚ) * (((n : ℚ) - 1) *
      ((matInv (scatter (centered Z)) *ᵥ colMean Z) ⬝ᵥ colMean Z)) := by
    rw [← h, npCov, matInv_smul _ (inv_ne_zero hn1), inv_inv,
      Matrix.smul_mulVec_assoc, Matrix.smul_dotProduct, smul_eq_mul]
  have hopt : opt_objective Z = ((n : ℚ) *
      ((matInv (scatter (centered Z)) *ᵥ colMean Z) ⬝ᵥ colMean Z)) * (n : ℚ) := by
    rw [opt_objective, optSig, matInv_smul _ (inv_ne_zero hn0), inv_inv,
      Matrix.smul_mulVec_assoc, Matrix.smul_dotProduct, smul_eq_mul]
  rw [hopt, hs]
  field_simp
  ring

/-- C4 (amended): for the same full data, same T and same bandwidth, the
evaluator statistic (via `np.cov`, normalising by `n-1`, and a linear
solve) and the optimizer objective (via `Z0ᵀZ0/n` and an explicit
inverse) do *not* coincide: the optimizer objective is exactly
`n/(n-1)` times the evaluator statistic. -/
theorem c4_stat_objective_ratio (fexp fsin fcos : ℚ → ℚ) {n d J : ℕ}
    (X Y : Matrix (Fin n) (Fin d) ℚ) (T : Matrix (Fin J) (Fin d) ℚ) (gw s : ℚ)
    (hn : 2 ≤ n) (hJ : 1 ≤ J)
    (hs : scf_compute_stat fexp fsin fcos X Y T gw = some s) :
    scf_opt_objective fexp fsin fcos X Y T gw = (n : ℚ) / ((n : ℚ) - 1) * s := by
  have hne : Nonempty (Fin J ⊕ Fin J) := ⟨Sum.inl ⟨0, hJ⟩⟩
  exact t2_opt_ratio _ _ hn hs

/-- C4 counterexample: at concrete data (`n = 3`) the evaluator
statistic is 4 while the optimizer objective on the very same `Z` is 6 —
the two computations do not produce the same value. -/
theorem c4_counterexample :
    scf_compute_stat (fun _ => 1) id (fun x => x * x) Xex 0 Tex 1 = some 4 ∧
    scf_opt_objective (fun _ => 1) id (fun x => x * x) Xex 0 Tex 1 = 6 ∧
    (4 : ℚ) ≠ 6 :=
  ⟨scf_stat_c4, opt_obj_c4, by norm_num⟩

/-- Witness for C4 at the same concrete data: the ratio is
`3/(3-1) = 3/2`, and indeed `6 = 3/2 * 4`. -/
theorem c4_witness :
    scf_opt_objective (fun _ => 1) id (fun x => x * x) Xex 0 Tex 1 =
      ((3 : ℕ) : ℚ) / (((3 : ℕ) : ℚ) - 1) * 4 :=
  c4_stat_objective_ratio (fun _ => 1) id (fun x => x * x) Xex 0 Tex 1 4
    (by norm_num) (by norm_num) scf_stat_c4
